import Mathlib

/-!
Verification of the Argus robot firmware (src/Argus/argus/argus.ino).

The firmware has two execution contexts sharing unsynchronized state:
a poll loop (`loop`) that samples sensors, executes the latched command
and resets the latch, and an SPI interrupt service routine
(`ISR(SPI_STC_vect)`) that either streams the 3-byte telemetry snapshot
(when the received byte is `CMD_GET_SENSOR_DATA = 0x10`) or stores the
received byte into the `command` latch and acknowledges with `0xFF`.

This file gives a shallow embedding: pure functions for the executor,
the ISR response computation and the sensor conversions, and an explicit
interleaving semantics for the poll loop with bus bytes arriving at the
three relevant gaps of every iteration.  Latch writes carry a ghost
source tag (iteration, gap, index of the bus event) so that claims about
"the command latched at some point" can be stated; erasing the tags
leaves exactly the byte-level behavior of the source.
-/

namespace Argus

/-! ## SPI command constants (argus.ino, SPI COMMANDS block) -/

def CMD_STOP : Nat := 0x00

def CMD_FORWARD : Nat := 0x01

def CMD_REVERSE : Nat := 0x02

def CMD_TURN_LEFT : Nat := 0x03

def CMD_TURN_RIGHT : Nat := 0x04

def CMD_GET_SENSOR_DATA : Nat := 0x10

/-- The valid motor command codes named by the spec:
STOP, FORWARD, REVERSE, TURN_LEFT, TURN_RIGHT. -/
def validCommands : List Nat :=
  [CMD_STOP, CMD_FORWARD, CMD_REVERSE, CMD_TURN_LEFT, CMD_TURN_RIGHT]

/-! ## Motor output state

The six output lines driven by the motor helper functions: the four
direction pins IN1..IN4 (digitalWrite HIGH = true, LOW = false) and the
two PWM duty cycles ENA (left) and ENB (right), each 0..255. -/

structure MotorState where
  in1 : Bool
  in2 : Bool
  in3 : Bool
  in4 : Bool
  ena : Nat
  enb : Nat
deriving DecidableEq

/-- goForward: IN1 HIGH, IN2 LOW, IN3 HIGH, IN4 LOW, both duties 200. -/
def goForward (_m : MotorState) : MotorState :=
  { in1 := true, in2 := false, in3 := true, in4 := false, ena := 200, enb := 200 }

/-- goReverse: IN1 LOW, IN2 HIGH, IN3 LOW, IN4 HIGH, both duties 150. -/
def goReverse (_m : MotorState) : MotorState :=
  { in1 := false, in2 := true, in3 := false, in4 := true, ena := 150, enb := 150 }

/-- turnLeft: left motor reverse (IN1 LOW, IN2 HIGH), right motor forward
(IN3 HIGH, IN4 LOW), both duties 180. -/
def turnLeft (_m : MotorState) : MotorState :=
  { in1 := false, in2 := true, in3 := true, in4 := false, ena := 180, enb := 180 }

/-- turnRight: left motor forward (IN1 HIGH, IN2 LOW), right motor reverse
(IN3 LOW, IN4 HIGH), both duties 180. -/
def turnRight (_m : MotorState) : MotorState :=
  { in1 := true, in2 := false, in3 := false, in4 := true, ena := 180, enb := 180 }

/-- stopMotors: all four direction pins LOW, both duties 0. -/
def stopMotors (_m : MotorState) : MotorState :=
  { in1 := false, in2 := false, in3 := false, in4 := false, ena := 0, enb := 0 }

/-- executeMotorCommand: the switch over the command byte.  The cases are
CMD_FORWARD, CMD_REVERSE, CMD_TURN_LEFT, CMD_TURN_RIGHT and CMD_STOP; any
other byte falls through the switch and leaves the outputs untouched.
Note that CMD_STOP is the byte 0x00, the same value the poll loop writes
back into the latch after executing. -/
def executeMotorCommand (cmd : Nat) (m : MotorState) : MotorState :=
  if cmd = CMD_FORWARD then goForward m
  else if cmd = CMD_REVERSE then goReverse m
  else if cmd = CMD_TURN_LEFT then turnLeft m
  else if cmd = CMD_TURN_RIGHT then turnRight m
  else if cmd = CMD_STOP then stopMotors m
  else m

/-- Direction of one motor side as determined by its two direction pins on
the L298N: (HIGH, LOW) drives forward, (LOW, HIGH) drives reverse, and
(LOW, LOW) is the neutral/coast state the firmware uses for stop. -/
inductive Direction where
  | fwd
  | rev
  | neutral
deriving DecidableEq

def sideDirection (a b : Bool) : Direction :=
  if a && !b then Direction.fwd
  else if !a && b then Direction.rev
  else Direction.neutral

def leftDirection (m : MotorState) : Direction := sideDirection m.in1 m.in2

def rightDirection (m : MotorState) : Direction := sideDirection m.in3 m.in4

/-! ## Sensor sampling -/

/-- The shared telemetry snapshot: `struct SensorData { short distance;
byte battery_level; }`.  `distance` models the C `short` (its 16-bit
range appears as hypotheses where it matters); `battery_level` models the
C `byte`. -/
structure SensorData where
  distance : Int
  battery_level : Nat
deriving DecidableEq

/-- readUltrasonic, as a function of the `pulseIn` result (`duration`,
microseconds; 0 on timeout): the source computes
`(short)(duration * 0.0343 / 2.0)`.  Over exact arithmetic this is
duration * 343 / 20000 truncated toward zero, which for the nonnegative
`duration` is Nat division.  (`pulseIn` is bounded by the 25000 us
timeout, so the value fits a short.) -/
def readUltrasonic (duration : Nat) : Int :=
  Int.ofNat (duration * 343 / 20000)

/-- The Arduino `map` function: `(x - in_min) * (out_max - out_min) /
(in_max - in_min) + out_min`, with C `long` division (truncation toward
zero, hence `Int.tdiv`). -/
def arduinoMap (x in_min in_max out_min out_max : Int) : Int :=
  Int.tdiv ((x - in_min) * (out_max - out_min)) (in_max - in_min) + out_min

/-- The Arduino `constrain` macro: clamp `amt` to `[low, high]`. -/
def constrain (amt low high : Int) : Int :=
  if amt < low then low else if amt > high then high else amt

/-- readBattery, as a function of the `analogRead` result: map the raw
value from the calibration pair (empty = 600, full = 850) onto 0..100 and
constrain to [0, 100]; the final `(byte)` cast keeps the low 8 bits. -/
def readBattery (sensorValue : Int) : Nat :=
  (constrain (arduinoMap sensorValue 600 850 0 100) 0 100).toNat % 256

/-! ## The SPI interrupt service routine -/

/-- Result of one ISR activation: the bytes staged on SPDR for the
controller (three for a telemetry request, the single 0xFF ack
otherwise), and the value written to the `command` latch, if any. -/
structure IsrResult where
  responses : List Nat
  newCommand : Option Nat
deriving DecidableEq

/-- ISR(SPI_STC_vect): on CMD_GET_SENSOR_DATA, stage
`(sensorData.distance >> 8) & 0xFF`, then `sensorData.distance & 0xFF`,
then `sensorData.battery_level`; otherwise store the byte into `command`
and stage the 0xFF acknowledgment.  The C right shift on the (promoted,
possibly negative) short is an arithmetic shift, i.e. floor division by
256 (`Int.fdiv`); `& 0xFF` keeps the low 8 bits (`Int.emod` 256). -/
def ISR_SPI_STC (receivedByte : Nat) (s : SensorData) : IsrResult :=
  if receivedByte = CMD_GET_SENSOR_DATA then
    { responses := [((Int.fdiv s.distance 256).emod 256).toNat,
                    (s.distance.emod 256).toNat,
                    s.battery_level % 256],
      newCommand := none }
  else
    { responses := [0xFF], newCommand := some receivedByte }

/-- Reconstruction of a big-endian signed 16-bit value from its two
bytes, as the controller side does. -/
def decodeInt16BE (hi lo : Nat) : Int :=
  if hi * 256 + lo < 32768 then (hi * 256 + lo : Int)
  else (hi * 256 + lo : Int) - 65536

/-! ## Interleaving semantics of the poll loop and the ISR

The poll loop body is
  sensorData.distance = readUltrasonic(); sensorData.battery_level = readBattery();
  executeMotorCommand(command);   -- reads the latch once, as the argument
  command = 0;                    -- the reset-to-no-op
  delay(100);
The ISR can preempt the loop between any two of these atomic actions (the
latch is a single byte, read and written atomically).  For the latch, the
only observable positions of a bus byte within an iteration are: before
the executor reads `command` (gap 1), between that read and the reset
(gap 2), and after the reset until the next iteration begins (gap 3).
An `IterSpec` records one iteration of the environment: the hardware
readings consumed by the sensor sampling, and the bus bytes arriving in
each gap, in order. -/

structure IterSpec where
  duration : Nat
  battRaw : Int
  g1 : List Nat
  g2 : List Nat
  g3 : List Nat
deriving DecidableEq

/-- Ghost identity of a bus event: (iteration, gap, index within gap). -/
abbrev EvtId := Nat × Nat × Nat

/-- The `command` latch, instrumented with the ghost source of its current
value: `some e` if the value was written by bus event `e`, `none` if it is
the initial value or was written by the poll loop's reset.  Erasing `src`
leaves exactly the byte held by the volatile `command` variable. -/
structure Latch where
  val : Nat
  src : Option EvtId
deriving DecidableEq

/-- Apply a list of ISR activations to the latch: a telemetry-request
byte (CMD_GET_SENSOR_DATA) leaves the latch alone, any other byte
overwrites it (ISR else-branch `command = receivedByte`).  `i` is the
ghost index of the first byte of `bs` within gap `g` of iteration `N`. -/
def latchList (N g i : Nat) : List Nat → Latch → Latch
  | [], c => c
  | b :: bs, c =>
      latchList N g (i + 1) bs
        (if b = CMD_GET_SENSOR_DATA then c else { val := b, src := some (N, g, i) })

/-- The poll loop's `command = 0` reset: overwrites whatever the latch
holds with the byte 0 (which is also CMD_STOP) and clears the ghost
source. -/
def resetLatch (_c : Latch) : Latch := { val := 0, src := none }

/-- Whole-system state: the `command` latch, the shared telemetry
snapshot, the motor output pins, and a ghost log of executor invocations
(one per completed iteration): (iteration, value passed to
executeMotorCommand, ghost source of that value). -/
structure SysState where
  command : Latch
  sensorData : SensorData
  motors : MotorState
  execLog : List (Nat × Nat × Option EvtId)
deriving DecidableEq

/-- One iteration `N` of `loop` under environment `it`: sample sensors
into the snapshot; read the latch after the gap-1 bus events and run
executeMotorCommand on that value (logged with its ghost source); the
gap-2 bus events write the latch but are then overwritten by the reset;
the gap-3 bus events write the reset latch. -/
def iterStep (N : Nat) (it : IterSpec) (st : SysState) : SysState :=
  { command := latchList N 3 0 it.g3
      (resetLatch (latchList N 2 0 it.g2 (latchList N 1 0 it.g1 st.command))),
    sensorData := { distance := readUltrasonic it.duration,
                    battery_level := readBattery it.battRaw },
    motors := executeMotorCommand (latchList N 1 0 it.g1 st.command).val st.motors,
    execLog := st.execLog ++
      [(N, (latchList N 1 0 it.g1 st.command).val, (latchList N 1 0 it.g1 st.command).src)] }

/-- State established by `setup`: `command = 0` (global initializer),
snapshot distance 0 and battery 0, motors stopped by the startup
`stopMotors()` call. -/
def initState : SysState :=
  { command := { val := 0, src := none },
    sensorData := { distance := 0, battery_level := 0 },
    motors := stopMotors
      { in1 := false, in2 := false, in3 := false, in4 := false, ena := 0, enb := 0 },
    execLog := [] }

def runAux : Nat → SysState → List IterSpec → SysState
  | _, st, [] => st
  | N, st, it :: rest => runAux (N + 1) (iterStep N it st) rest

/-- Run the firmware from the post-`setup` state through the given
iterations. -/
def run (sched : List IterSpec) : SysState := runAux 0 initState sched

/-- The bytes of gap `g` of one iteration. -/
def gapBytes (it : IterSpec) (g : Nat) : List Nat :=
  if g = 1 then it.g1 else if g = 2 then it.g2 else if g = 3 then it.g3 else []

/-- The byte of bus event (N, g, i) in a schedule, if that event exists. -/
def eventAt (sched : List IterSpec) (N g i : Nat) : Option Nat :=
  match sched.get? N with
  | none => none
  | some it => (gapBytes it g).get? i

/-- All bus bytes of a schedule, in arrival order. -/
def allBusBytes (sched : List IterSpec) : List Nat :=
  sched.foldr (fun it acc => it.g1 ++ it.g2 ++ it.g3 ++ acc) []

/-- Last-write-wins over a run of bus bytes: each non-telemetry byte
overwrites the value, a telemetry-request byte leaves it alone. -/
def lastWriteWinsByte (bs : List Nat) (v : Nat) : Nat :=
  bs.foldl (fun c b => if b = CMD_GET_SENSOR_DATA then c else b) v

/-- The spec's view of the latch after a run (its invariant: the latch
holds the single most-recently-received value, last-write-wins, never
accumulating history): the last non-telemetry byte delivered after the
final reset-to-no-op — i.e. in gap 3 of the last iteration — or the
no-op value 0 if there is none.  Written from the spec's wording, to be
compared with the latch the `run` semantics computes. -/
def mostRecentCommandByte : List IterSpec → Nat
  | [] => 0
  | [it] => lastWriteWinsByte it.g3 0
  | _ :: it2 :: rest => mostRecentCommandByte (it2 :: rest)

/-- Shape of the ghost source of a logged executor invocation: the value
read at iteration `e.1` was written by no bus event, by a gap-1 event of
the same iteration, or by a gap-3 event of the previous iteration. -/
def entrySrcOk (e : Nat × Nat × Option EvtId) : Prop :=
  e.2.2 = none ∨ (∃ i, e.2.2 = some (e.1, 1, i)) ∨
    (∃ i, 1 ≤ e.1 ∧ e.2.2 = some (e.1 - 1, 3, i))

/-- Shape of the latch's ghost source at an iteration boundary: entering
iteration `N`, the latch value was written by no bus event or by a gap-3
event of iteration `N - 1`. -/
def latchSrcOk (N : Nat) (c : Latch) : Prop :=
  c.src = none ∨ (∃ i, 1 ≤ N ∧ c.src = some (N - 1, 3, i))

/-! ## Concrete schedules and states used by counterexamples and witnesses -/

/-- Two quiet iterations except for a FORWARD byte arriving between the
executor's read of the latch and the reset of iteration 0. -/
def schedC1cex : List IterSpec :=
  [{ duration := 0, battRaw := 0, g1 := [], g2 := [CMD_FORWARD], g3 := [] },
   { duration := 0, battRaw := 0, g1 := [], g2 := [], g3 := [] }]

/-- One iteration with a FORWARD byte arriving before the executor reads
the latch. -/
def schedC1wit : List IterSpec :=
  [{ duration := 0, battRaw := 0, g1 := [CMD_FORWARD], g2 := [], g3 := [] }]

/-- One iteration with the byte 0x05 (not a valid command, not the
telemetry request) arriving after the reset. -/
def schedC3cex : List IterSpec :=
  [{ duration := 0, battRaw := 0, g1 := [], g2 := [], g3 := [0x05] }]

/-- An arbitrary prior output state with equal duty cycles. -/
def dutyTestMotors : MotorState :=
  { in1 := false, in2 := false, in3 := false, in4 := false, ena := 7, enb := 7 }

/-! ## Helper lemmas -/

/-- A latch produced by a run of bus events in gap `g` of iteration `N`
keeps its prior source or carries a source from that very gap. -/
theorem latchList_src (N g : Nat) :
    ∀ (bs : List Nat) (i : Nat) (c : Latch),
      (latchList N g i bs c).src = c.src ∨
        ∃ j, (latchList N g i bs c).src = some (N, g, j) := by
  intro bs
  induction bs with
  | nil => intro i c; exact Or.inl rfl
  | cons b bs ih =>
    intro i c
    by_cases hb : b = CMD_GET_SENSOR_DATA
    · simp only [latchList, if_pos hb]
      exact ih (i + 1) c
    · simp only [latchList, if_neg hb]
      rcases ih (i + 1) { val := b, src := some (N, g, i) } with h | h
      · exact Or.inr ⟨i, h⟩
      · exact Or.inr h

/-- A latch produced by a run of bus events keeps its prior value or
holds one of those bytes, and a byte taken from the bus is never the
telemetry-request code. -/
theorem latchList_val (N g : Nat) :
    ∀ (bs : List Nat) (i : Nat) (c : Latch),
      (latchList N g i bs c).val = c.val ∨
        ((latchList N g i bs c).val ∈ bs ∧
          (latchList N g i bs c).val ≠ CMD_GET_SENSOR_DATA) := by
  intro bs
  induction bs with
  | nil => intro i c; exact Or.inl rfl
  | cons b bs ih =>
    intro i c
    by_cases hb : b = CMD_GET_SENSOR_DATA
    · simp only [latchList, if_pos hb]
      rcases ih (i + 1) c with h | ⟨hm, hn⟩
      · exact Or.inl h
      · exact Or.inr ⟨List.mem_cons_of_mem b hm, hn⟩
    · simp only [latchList, if_neg hb]
      rcases ih (i + 1) { val := b, src := some (N, g, i) } with h | ⟨hm, hn⟩
      · exact Or.inr ⟨by rw [h]; exact List.mem_cons_self b bs, by rw [h]; exact hb⟩
      · exact Or.inr ⟨List.mem_cons_of_mem b hm, hn⟩

/-- The value of the instrumented latch after a run of bus events is the
last-write-wins fold of the gap's bytes over the prior value. -/
theorem latchList_val_foldl (N g : Nat) :
    ∀ (bs : List Nat) (i : Nat) (c : Latch),
      (latchList N g i bs c).val = lastWriteWinsByte bs c.val := by
  intro bs
  induction bs with
  | nil => intro i c; rfl
  | cons b bs ih =>
    intro i c
    by_cases hb : b = CMD_GET_SENSOR_DATA
    · simp only [latchList, lastWriteWinsByte, List.foldl_cons, if_pos hb]
      exact ih (i + 1) c
    · simp only [latchList, lastWriteWinsByte, List.foldl_cons, if_neg hb]
      exact ih (i + 1) { val := b, src := some (N, g, i) }

/-- After at least one complete iteration, the latch holds exactly the
last-write-wins value of the bytes that arrived after the final reset:
the `run` latch refines the spec's most-recently-received view. -/
theorem runAux_command_eq_most_recent :
    ∀ (sched : List IterSpec) (N : Nat) (st : SysState), sched ≠ [] →
      (runAux N st sched).command.val = mostRecentCommandByte sched := by
  intro sched
  induction sched with
  | nil => intro N st hne; exact absurd rfl hne
  | cons it rest ih =>
    intro N st _
    cases rest with
    | nil =>
      show (iterStep N it st).command.val = mostRecentCommandByte [it]
      rw [show (iterStep N it st).command =
        latchList N 3 0 it.g3
          (resetLatch (latchList N 2 0 it.g2 (latchList N 1 0 it.g1 st.command))) from rfl]
      rw [latchList_val_foldl]
      rfl
    | cons it2 rest2 =>
      show (runAux (N + 1) (iterStep N it st) (it2 :: rest2)).command.val =
        mostRecentCommandByte (it :: it2 :: rest2)
      rw [ih (N + 1) (iterStep N it st) (by simp)]
      rfl

/-- In a list of keyed entries whose keys are pairwise distinct, any
predicate that pins the key down holds of at most one entry. -/
theorem countP_le_one_of_key {α : Type} (v : Nat) :
    ∀ (l : List (Nat × α)) (p : Nat × α → Bool),
      (l.map (fun e => e.1)).Nodup →
      (∀ e ∈ l, p e = true → e.1 = v) →
      l.countP p ≤ 1 := by
  intro l
  induction l with
  | nil => intro p _ _; simp [List.countP_nil]
  | cons a l ih =>
    intro p hnd hp
    rw [List.map_cons, List.nodup_cons] at hnd
    by_cases hpa : p a = true
    · rw [List.countP_cons_of_pos _ _ hpa]
      have hav : a.1 = v := hp a (List.mem_cons_self a l) hpa
      have hzero : l.countP p = 0 := by
        rw [List.countP_eq_zero]
        intro e he hpe
        have hev : e.1 = v := hp e (List.mem_cons_of_mem a he) hpe
        exact hnd.1 (by
          rw [hav, ← hev]
          exact List.mem_map_of_mem (fun e => e.1) he)
      omega
    · rw [List.countP_cons_of_neg _ _ (by simpa using hpa)]
      exact ih p hnd.2 (fun e he hpe => hp e (List.mem_cons_of_mem a he) hpe)

/-- Invariant of the run: the executor is invoked exactly once per
iteration (the log's iteration keys are 0, 1, 2, ...), every logged
invocation's ghost source has the shape `entrySrcOk`, and at every
iteration boundary the latch's ghost source has the shape `latchSrcOk`. -/
theorem runAux_inv :
    ∀ (sched : List IterSpec) (N : Nat) (st : SysState),
      st.execLog.map (fun e => e.1) = List.range N →
      (∀ e ∈ st.execLog, entrySrcOk e) →
      latchSrcOk N st.command →
      ((runAux N st sched).execLog.map (fun e => e.1) = List.range (N + sched.length) ∧
        (∀ e ∈ (runAux N st sched).execLog, entrySrcOk e) ∧
        latchSrcOk (N + sched.length) (runAux N st sched).command) := by
  intro sched
  induction sched with
  | nil =>
    intro N st h1 h2 h3
    exact ⟨by simpa using h1, h2, by simpa using h3⟩
  | cons it rest ih =>
    intro N st h1 h2 h3
    have hstep1 : (iterStep N it st).execLog.map (fun e => e.1) = List.range (N + 1) := by
      simp [iterStep, List.range_succ, h1]
    have hstep2 : ∀ e ∈ (iterStep N it st).execLog, entrySrcOk e := by
      intro e he
      simp only [iterStep, List.mem_append, List.mem_singleton] at he
      rcases he with he | he
      · exact h2 e he
      · subst he
        rcases latchList_src N 1 it.g1 0 st.command with h | ⟨j, h⟩
        · rcases h3 with h3 | ⟨i, hN, h3⟩
          · exact Or.inl (h.trans h3)
          · exact Or.inr (Or.inr ⟨i, hN, h.trans h3⟩)
        · exact Or.inr (Or.inl ⟨j, h⟩)
    have hstep3 : latchSrcOk (N + 1) (iterStep N it st).command := by
      rcases latchList_src N 3 it.g3 0
          (resetLatch (latchList N 2 0 it.g2 (latchList N 1 0 it.g1 st.command))) with
        h | ⟨j, h⟩
      · exact Or.inl h
      · exact Or.inr ⟨j, by omega, by simpa using h⟩
    have hrest := ih (N + 1) (iterStep N it st) hstep1 hstep2 hstep3
    have harith : N + 1 + rest.length = N + (it :: rest).length := by
      simp; omega
    rw [← harith]
    exact hrest

/-- The latch never holds the telemetry-request byte, and always holds
either 0 or one of the bytes the bus delivered. -/
theorem runAux_command_val :
    ∀ (sched : List IterSpec) (N : Nat) (st : SysState),
      st.command.val ≠ CMD_GET_SENSOR_DATA →
      ((runAux N st sched).command.val ≠ CMD_GET_SENSOR_DATA ∧
        ((runAux N st sched).command.val = st.command.val ∨
          (runAux N st sched).command.val = 0 ∨
          (runAux N st sched).command.val ∈ allBusBytes sched)) := by
  intro sched
  induction sched with
  | nil => intro N st h; exact ⟨h, Or.inl rfl⟩
  | cons it rest ih =>
    intro N st h
    have hc3 : (iterStep N it st).command.val = 0 ∨
        ((iterStep N it st).command.val ∈ it.g3 ∧
          (iterStep N it st).command.val ≠ CMD_GET_SENSOR_DATA) := by
      rcases latchList_val N 3 it.g3 0
          (resetLatch (latchList N 2 0 it.g2 (latchList N 1 0 it.g1 st.command))) with
        hv | ⟨hm, hn⟩
      · exact Or.inl hv
      · exact Or.inr ⟨hm, hn⟩
    have hne : (iterStep N it st).command.val ≠ CMD_GET_SENSOR_DATA := by
      rcases hc3 with h0 | ⟨_, hn⟩
      · rw [h0]; decide
      · exact hn
    have hrest := ih (N + 1) (iterStep N it st) hne
    refine ⟨hrest.1, ?_⟩
    have hmem3 : ∀ x, x ∈ it.g3 → x ∈ allBusBytes (it :: rest) := by
      intro x hx
      simp [allBusBytes, hx]
    have hmemrest : ∀ x, x ∈ allBusBytes rest → x ∈ allBusBytes (it :: rest) := by
      intro x hx
      simp [allBusBytes] at hx ⊢
      tauto
    rcases hrest.2 with he | h0 | hm
    · rcases hc3 with h0 | ⟨hm, _⟩
      · exact Or.inr (Or.inl (he.trans h0))
      · exact Or.inr (Or.inr (hmem3 _ (he ▸ hm)))
    · exact Or.inr (Or.inl h0)
    · exact Or.inr (Or.inr (hmemrest _ hm))

/-! ## Claim theorems -/

/-- C1 counterexample: in schedC1cex the FORWARD byte is latched during
iteration 0 (between the executor's read and the reset of that
iteration), yet no executor invocation up to and including iteration 1
consumes it — the reset overwrote it first.  So a command latched during
iteration N is NOT guaranteed to execute by iteration N + 1. -/
theorem C1_counterexample :
    eventAt schedC1cex 0 2 0 = some CMD_FORWARD ∧
    CMD_FORWARD ≠ CMD_GET_SENSOR_DATA ∧
    ¬ ∃ e ∈ (run schedC1cex).execLog, e.2.2 = some (0, 2, 0) ∧ e.1 ≤ 0 + 1 := by
  decide

/-- C1 (amended): a command byte latched by the ISR during poll-loop
iteration N is executed by the Command Executor at most once, and any
execution of it occurs no later than iteration N + 1; execution itself is
not guaranteed, since a later bus byte or the loop's reset-to-no-op can
overwrite the latch before the executor reads it. -/
theorem C1_latched_command_at_most_once (sched : List IterSpec) (N g i b : Nat)
    (hev : eventAt sched N g i = some b) (hb : b ≠ CMD_GET_SENSOR_DATA) :
    ((run sched).execLog.countP (fun e => decide (e.2.2 = some (N, g, i)))) ≤ 1 ∧
    ∀ e ∈ (run sched).execLog, e.2.2 = some (N, g, i) → e.1 ≤ N + 1 := by
  have hinv := runAux_inv sched 0 initState rfl
    (fun e he => absurd he (List.not_mem_nil e)) (Or.inl rfl)
  have hmap : (run sched).execLog.map (fun e => e.1) = List.range (0 + sched.length) :=
    hinv.1
  constructor
  · apply countP_le_one_of_key (if g = 3 then N + 1 else N)
    · rw [hmap]; exact List.nodup_range _
    · intro e he hpe
      have hsrc : e.2.2 = some (N, g, i) := of_decide_eq_true hpe
      rcases hinv.2.1 e he with h | ⟨j, h⟩ | ⟨j, hj1, h⟩
      · simp [h] at hsrc
      · rw [h] at hsrc
        simp only [Option.some.injEq, Prod.mk.injEq] at hsrc
        obtain ⟨hN, hg, -⟩ := hsrc
        rw [if_neg (by omega)]
        omega
      · rw [h] at hsrc
        simp only [Option.some.injEq, Prod.mk.injEq] at hsrc
        obtain ⟨hN, hg, -⟩ := hsrc
        rw [if_pos (by omega)]
        omega
  · intro e he hsrc
    rcases hinv.2.1 e he with h | ⟨j, h⟩ | ⟨j, hj1, h⟩
    · simp [h] at hsrc
    · rw [h] at hsrc
      simp only [Option.some.injEq, Prod.mk.injEq] at hsrc
      omega
    · rw [h] at hsrc
      simp only [Option.some.injEq, Prod.mk.injEq] at hsrc
      omega

/-- C1 witness: in schedC1wit the FORWARD byte latched before the
executor's read of iteration 0 satisfies the amended property. -/
theorem C1_latched_command_at_most_once_witness :
    (eventAt schedC1wit 0 1 0 = some CMD_FORWARD ∧
      CMD_FORWARD ≠ CMD_GET_SENSOR_DATA) ∧
    (((run schedC1wit).execLog.countP (fun e => decide (e.2.2 = some (0, 1, 0)))) ≤ 1 ∧
      ∀ e ∈ (run schedC1wit).execLog, e.2.2 = some (0, 1, 0) → e.1 ≤ 0 + 1) :=
  ⟨⟨by decide, by decide⟩,
    C1_latched_command_at_most_once schedC1wit 0 1 0 CMD_FORWARD (by decide) (by decide)⟩

/-- C2: for every telemetry snapshot whose fields are in the ranges of
their C types, a telemetry request produces exactly 3 response bytes —
distance high byte, distance low byte, battery — and the big-endian
signed 16-bit reconstruction of the first two equals the snapshot's
distance while the third equals the snapshot's battery level. -/
theorem C2_telemetry_reply (s : SensorData) (h1 : -32768 ≤ s.distance)
    (h2 : s.distance < 32768) (h3 : s.battery_level < 256) :
    ∃ hi lo batt,
      (ISR_SPI_STC CMD_GET_SENSOR_DATA s).responses = [hi, lo, batt] ∧
      decodeInt16BE hi lo = s.distance ∧ batt = s.battery_level := by
  refine ⟨_, _, _, rfl, ?_, Nat.mod_eq_of_lt h3⟩
  unfold decodeInt16BE
  rw [Int.fdiv_eq_ediv _ (by norm_num)]
  have e1 : 256 * (s.distance / 256) + s.distance.emod 256 = s.distance :=
    Int.ediv_add_emod s.distance 256
  have e2 : 0 ≤ s.distance.emod 256 := Int.emod_nonneg s.distance (by norm_num)
  have e3 : s.distance.emod 256 < 256 := Int.emod_lt_of_pos s.distance (by norm_num)
  have q1 : 256 * (s.distance / 256 / 256) + (s.distance / 256).emod 256 =
      s.distance / 256 := Int.ediv_add_emod (s.distance / 256) 256
  have q2 : 0 ≤ (s.distance / 256).emod 256 := Int.emod_nonneg _ (by norm_num)
  have q3 : (s.distance / 256).emod 256 < 256 := Int.emod_lt_of_pos _ (by norm_num)
  have q4 : -128 ≤ s.distance / 256 := by omega
  have q5 : s.distance / 256 < 128 := by omega
  split_ifs <;> omega

/-- C2 witness: the snapshot with distance -2 and battery 77. -/
theorem C2_telemetry_reply_witness :
    ((-32768 : Int) ≤ -2 ∧ (-2 : Int) < 32768 ∧ (77 : Nat) < 256) ∧
    (∃ hi lo batt,
      (ISR_SPI_STC CMD_GET_SENSOR_DATA
        { distance := -2, battery_level := 77 }).responses = [hi, lo, batt] ∧
      decodeInt16BE hi lo =
        ({ distance := -2, battery_level := 77 } : SensorData).distance ∧
      batt = ({ distance := -2, battery_level := 77 } : SensorData).battery_level) :=
  ⟨⟨by decide, by decide, by decide⟩,
    C2_telemetry_reply { distance := -2, battery_level := 77 }
      (by decide) (by decide) (by decide)⟩

/-- C3 counterexample: after the byte 0x05 arrives, the latch holds 0x05,
which is neither the no-op value 0 nor a member of the valid command set
— the ISR stores ANY non-telemetry byte, valid or not. -/
theorem C3_counterexample :
    (run schedC3cex).command.val = 0x05 ∧ (0x05 : Nat) ≠ 0 ∧
    (0x05 : Nat) ∉ validCommands := by
  decide

/-- C3 (amended): after every sequence of bus-handler invocations and
poll-loop iterations, the latch holds either the no-op value 0 or the
single most-recently-received non-telemetry byte — which need not be a
valid command code.  Last-write-wins exactly: the latch value EQUALS the
last byte other than 0x10 delivered after the final reset-to-no-op (0
when there is none), so no earlier byte can survive; and the
TELEMETRY_REQUEST byte 0x10 is never stored. -/
theorem C3_latch_most_recent_byte (sched : List IterSpec) :
    (run sched).command.val ≠ CMD_GET_SENSOR_DATA ∧
    (run sched).command.val = mostRecentCommandByte sched := by
  refine ⟨(runAux_command_val sched 0 initState (by decide)).1, ?_⟩
  cases sched with
  | nil => rfl
  | cons it rest =>
    exact runAux_command_eq_most_recent (it :: rest) 0 initState (by simp)

/-- C4 counterexample: the turn duty 180 is NOT lower than the duty of
straight-line reverse motion, which is 150. -/
theorem C4_counterexample :
    (turnLeft initState.motors).ena = 180 ∧
    (goReverse initState.motors).ena = 150 ∧
    ¬ (turnLeft initState.motors).ena < (goReverse initState.motors).ena := by
  decide

/-- C4 (amended): TURN_LEFT and TURN_RIGHT drive the two sides in
opposite directions with equal duty on both sides (180); that turn duty
is lower than FORWARD's duty (200) but HIGHER than REVERSE's duty (150);
FORWARD and REVERSE use different duty values from each other. -/
theorem C4_turn_profile (m : MotorState) :
    leftDirection (turnLeft m) = Direction.rev ∧
    rightDirection (turnLeft m) = Direction.fwd ∧
    leftDirection (turnRight m) = Direction.fwd ∧
    rightDirection (turnRight m) = Direction.rev ∧
    (turnLeft m).ena = (turnLeft m).enb ∧
    (turnRight m).ena = (turnRight m).enb ∧
    (turnLeft m).ena = (turnRight m).ena ∧
    (turnLeft m).ena < (goForward m).ena ∧
    (goReverse m).ena < (turnLeft m).ena ∧
    (goForward m).ena ≠ (goReverse m).ena := by
  refine ⟨rfl, rfl, rfl, rfl, rfl, rfl, rfl, ?_, ?_, ?_⟩
  · show (180 : Nat) < 200
    norm_num
  · show (150 : Nat) < 180
    norm_num
  · show (200 : Nat) ≠ 150
    norm_num

/-- C5: applying any valid command and then STOP leaves both duty cycles
at 0 and both direction pin pairs in the both-low neutral state,
regardless of the prior output state. -/
theorem C5_stop_resets_outputs (c : Nat) (m : MotorState) (hc : c ∈ validCommands) :
    executeMotorCommand CMD_STOP (executeMotorCommand c m) =
      { in1 := false, in2 := false, in3 := false, in4 := false, ena := 0, enb := 0 } :=
  rfl

/-- C5 witness: FORWARD then STOP from the startup output state. -/
theorem C5_stop_resets_outputs_witness :
    CMD_FORWARD ∈ validCommands ∧
    executeMotorCommand CMD_STOP (executeMotorCommand CMD_FORWARD initState.motors) =
      { in1 := false, in2 := false, in3 := false, in4 := false, ena := 0, enb := 0 } :=
  ⟨by decide, C5_stop_resets_outputs CMD_FORWARD initState.motors (by decide)⟩

/-- C6 counterexample: the code treats the byte 0 as CMD_STOP, not as a
no-op: applying 0 after FORWARD changes the outputs (it zeroes the
duties), contradicting the claim that apply(0) leaves outputs as
previously set. -/
theorem C6_counterexample :
    executeMotorCommand 0 (goForward initState.motors) ≠ goForward initState.motors ∧
    (executeMotorCommand 0 (goForward initState.motors)).ena = 0 ∧
    (goForward initState.motors).ena = 200 := by
  decide

/-- C6 (amended): for every command code c outside the five-case switch
(0x00 STOP, 0x01 FORWARD, 0x02 REVERSE, 0x03 TURN_LEFT, 0x04 TURN_RIGHT)
and every prior output state, apply(c) leaves all outputs exactly as
previously set.  The byte 0 is NOT such a code: it is CMD_STOP and
actively zeroes the outputs. -/
theorem C6_unrecognized_is_noop (c : Nat) (m : MotorState)
    (hc : c ∉ validCommands) :
    executeMotorCommand c m = m := by
  have h0 : c ≠ CMD_STOP := fun h => hc (by simp [validCommands, h])
  have h1 : c ≠ CMD_FORWARD := fun h => hc (by simp [validCommands, h])
  have h2 : c ≠ CMD_REVERSE := fun h => hc (by simp [validCommands, h])
  have h3 : c ≠ CMD_TURN_LEFT := fun h => hc (by simp [validCommands, h])
  have h4 : c ≠ CMD_TURN_RIGHT := fun h => hc (by simp [validCommands, h])
  simp [executeMotorCommand, h0, h1, h2, h3, h4]

/-- C6 witness: the unrecognized byte 0x07 leaves the outputs alone. -/
theorem C6_unrecognized_is_noop_witness :
    (0x07 : Nat) ∉ validCommands ∧
    executeMotorCommand 0x07 (goForward initState.motors) = goForward initState.motors :=
  ⟨by decide, C6_unrecognized_is_noop 0x07 (goForward initState.motors) (by decide)⟩

/-- C7: with the calibration pair empty = 600 and full = 850, the battery
measurement maps 850 to 100, 600 to 0, 725 to a value in 48..50 (the code
yields exactly 50), and every reading is clamped to at most 100. -/
theorem C7_battery_linear_clamped :
    readBattery 850 = 100 ∧ readBattery 600 = 0 ∧
    48 ≤ readBattery 725 ∧ readBattery 725 ≤ 50 ∧
    ∀ v : Int, readBattery v ≤ 100 := by
  refine ⟨by decide, by decide, by decide, by decide, ?_⟩
  intro v
  unfold readBattery constrain
  split_ifs <;> omega

/-- C8: when no echo arrives within the timeout, pulseIn reports an
elapsed time of 0 and readUltrasonic returns the sentinel distance 0; the
poll-loop iteration is a total function that stores that 0 in the
snapshot and carries on. -/
theorem C8_timeout_distance_zero :
    readUltrasonic 0 = 0 ∧
    ∀ (N : Nat) (st : SysState) (battRaw : Int) (b1 b2 b3 : List Nat),
      (iterStep N { duration := 0, battRaw := battRaw, g1 := b1, g2 := b2, g3 := b3 }
        st).sensorData.distance = 0 := by
  refine ⟨rfl, fun N st battRaw b1 b2 b3 => ?_⟩
  show readUltrasonic 0 = 0
  rfl

/-- C9: in the state established by setup (distance 0, battery 0, before
any poll-loop iteration), a telemetry request yields exactly the three
bytes 0x00, 0x00, 0x00. -/
theorem C9_initial_telemetry_zero :
    (run []).sensorData.distance = 0 ∧ (run []).sensorData.battery_level = 0 ∧
    (ISR_SPI_STC CMD_GET_SENSOR_DATA (run []).sensorData).responses = [0, 0, 0] := by
  decide

/-- C10: every motor profile sets the left duty equal to the right duty
(FORWARD 200/200, REVERSE 150/150, TURN_LEFT 180/180, TURN_RIGHT 180/180,
STOP 0/0), so the executor preserves equality of the two duty cycles for
every command byte. -/
theorem C10_equal_duties (c : Nat) (m : MotorState) (h : m.ena = m.enb) :
    (goForward m).ena = (goForward m).enb ∧ (goForward m).ena = 200 ∧
    (goReverse m).ena = (goReverse m).enb ∧ (goReverse m).ena = 150 ∧
    (turnLeft m).ena = (turnLeft m).enb ∧ (turnLeft m).ena = 180 ∧
    (turnRight m).ena = (turnRight m).enb ∧ (turnRight m).ena = 180 ∧
    (stopMotors m).ena = (stopMotors m).enb ∧ (stopMotors m).ena = 0 ∧
    (executeMotorCommand c m).ena = (executeMotorCommand c m).enb := by
  refine ⟨rfl, rfl, rfl, rfl, rfl, rfl, rfl, rfl, rfl, rfl, ?_⟩
  unfold executeMotorCommand
  split_ifs <;> first | rfl | exact h

/-- C10 witness: the unrecognized byte 0x09 on a prior state with equal
duties 7/7. -/
theorem C10_equal_duties_witness :
    dutyTestMotors.ena = dutyTestMotors.enb ∧
    ((goForward dutyTestMotors).ena = (goForward dutyTestMotors).enb ∧
      (goForward dutyTestMotors).ena = 200 ∧
      (goReverse dutyTestMotors).ena = (goReverse dutyTestMotors).enb ∧
      (goReverse dutyTestMotors).ena = 150 ∧
      (turnLeft dutyTestMotors).ena = (turnLeft dutyTestMotors).enb ∧
      (turnLeft dutyTestMotors).ena = 180 ∧
      (turnRight dutyTestMotors).ena = (turnRight dutyTestMotors).enb ∧
      (turnRight dutyTestMotors).ena = 180 ∧
      (stopMotors dutyTestMotors).ena = (stopMotors dutyTestMotors).enb ∧
      (stopMotors dutyTestMotors).ena = 0 ∧
      (executeMotorCommand 0x09 dutyTestMotors).ena =
        (executeMotorCommand 0x09 dutyTestMotors).enb) :=
  ⟨rfl, C10_equal_duties 0x09 dutyTestMotors rfl⟩

end Argus
